import Mathlib

/-!
Verification of the `editor.py` module: editor resolution from the
environment, editor-specific argument policy, and the `edit`
orchestration (target-file preparation, child-process spawn, read-back).

The Python code is shallowly embedded: the process environment, the
executable locator, `os.path.realpath`, the temporary-file allocator and
the child-process spawner are explicit inputs; file-system state is an
association list from path to bytes; `edit` additionally produces a trace
of file opens/closes and spawn events so that frame properties (which
files are touched, which handles stay open) can be stated.
-/

namespace PyEditor

/-- Byte strings, as returned by Python file reads in binary mode. -/
abbrev Bytes := List UInt8

/-- Errors the module can raise: `EditorError` (with its message),
`ValueError` from `shlex.split`, `IndexError` from `editor[0]`,
OS errors from `open`, and a failure of `subprocess.Popen`. -/
inductive PyErr where
  | editorNotFound (msg : String)
  | valueError
  | indexError
  | ioError
  | spawnError
deriving DecidableEq

/-- The fallback editor names, from `get_default_editors`. -/
def get_default_editors : List String :=
  ["editor", "vim", "emacs", "nano"]

/-- The editor-specific extra flags, from `get_editor_args`:
an `if`/`elif` chain on the editor base name. -/
def get_editor_args (editor : String) : List String :=
  if editor ∈ ["vim", "gvim", "vim.basic", "vim.tiny"] then
    ["-f", "-o"]
  else if editor ∈ ["emacs", "emacsclient"] then
    ["-nw"]
  else if editor = "gedit" then
    ["-w", "--new-window"]
  else if editor = "nano" then
    ["-R"]
  else if editor = "code" then
    ["-w", "-n"]
  else
    []

/-- Python `a or b` on optional strings: `a` unless `a` is `None` or
the empty string (both falsy), in which case `b`. -/
def pyOr (a b : Option String) : Option String :=
  match a with
  | some s => if s = "" then b else some s
  | none => b

/-- The message of the `EditorError` raised by `get_editor`; the two
adjacent string literals in the source concatenate without a space. -/
def editorNotFoundMsg : String :=
  "Unable to find a viable editor on this system." ++
    "Please consider setting your $EDITOR variable"

/-- The fallback loop of `get_editor`: try `find_executable` on each
default name, return the first resolved path, else raise. -/
def findDefault (locate : String → Option String) : List String → Except PyErr String
  | [] => .error (.editorNotFound editorNotFoundMsg)
  | ed :: rest =>
    match locate ed with
    | some path => .ok path
    | none => findDefault locate rest

/-- The inputs `edit`/`get_editor` take from the outside world:
the two environment variables, `find_executable`, `os.path.realpath`,
the two `isatty` probes, `sys.platform`, and the name the
temporary-file allocator produces for a given suffix. -/
structure Env where
  visual : Option String
  editorVar : Option String
  locate : String → Option String
  realpath : String → String
  stdinIsatty : Bool
  stdoutIsatty : Bool
  platform : String
  tmpName : String → String

/-- Embedding of `get_editor`: `os.environ.get('VISUAL') or os.environ.get('EDITOR')`,
returned if truthy, else the fallback loop over the default names. -/
def get_editor (env : Env) : Except PyErr String :=
  match pyOr env.visual env.editorVar with
  | some e => if e = "" then findDefault env.locate get_default_editors else .ok e
  | none => findDefault env.locate get_default_editors

/-- Embedding of `get_tty_filename`: `'CON:'` on `win32`, `/dev/tty` otherwise. -/
def get_tty_filename (platform : String) : String :=
  if platform = "win32" then "CON:" else "/dev/tty"

/-- Characters of the current path segment: scan, restarting at every
slash. -/
def basenameAux : List Char → List Char → List Char
  | [], acc => acc
  | c :: cs, acc => if c = '/' then basenameAux cs [] else basenameAux cs (acc ++ [c])

/-- Embedding of `os.path.basename` for POSIX paths: the part after the last slash. -/
def basename (p : String) : String :=
  ⟨basenameAux p.data []⟩

/-! ### `shlex.split`

`edit` tokenizes the resolved editor string with `shlex.split`, i.e. a
POSIX-mode lexer with `whitespace_split = True` and no comment
characters.  The lexer is a state machine over the characters: outside
any token, inside a token, inside single or double quotes, or right
after a backslash (from word context or from double-quote context). -/

/-- Lexer states of the `shlex` state machine. -/
inductive LexState where
  | ws | word | squote | dquote | escWord | escDquote
deriving DecidableEq

/-- The `shlex` whitespace characters. -/
def isShlexWs (c : Char) : Bool :=
  c == ' ' || c == '\t' || c == '\r' || c == '\n'

/-- One pass of the `shlex` lexer: remaining characters, current state,
current token, whether the current token saw a quote, tokens so far.
Returns `none` where `shlex` raises `ValueError` (unclosed quote,
dangling escape). -/
def shlexRun : List Char → LexState → List Char → Bool → List String →
    Option (List String)
  | [], .ws, tok, quoted, acc =>
    some (if !tok.isEmpty || quoted then acc ++ [⟨tok⟩] else acc)
  | [], .word, tok, quoted, acc =>
    some (if !tok.isEmpty || quoted then acc ++ [⟨tok⟩] else acc)
  | [], .squote, _, _, _ => none
  | [], .dquote, _, _, _ => none
  | [], .escWord, _, _, _ => none
  | [], .escDquote, _, _, _ => none
  | c :: cs, .ws, tok, quoted, acc =>
    if isShlexWs c then
      if !tok.isEmpty || quoted then shlexRun cs .ws [] false (acc ++ [⟨tok⟩])
      else shlexRun cs .ws tok quoted acc
    else if c == '\\' then shlexRun cs .escWord tok quoted acc
    else if c == '\'' then shlexRun cs .squote tok quoted acc
    else if c == '"' then shlexRun cs .dquote tok quoted acc
    else shlexRun cs .word (tok ++ [c]) quoted acc
  | c :: cs, .word, tok, quoted, acc =>
    if isShlexWs c then
      if !tok.isEmpty || quoted then shlexRun cs .ws [] false (acc ++ [⟨tok⟩])
      else shlexRun cs .ws tok quoted acc
    else if c == '\'' then shlexRun cs .squote tok quoted acc
    else if c == '"' then shlexRun cs .dquote tok quoted acc
    else if c == '\\' then shlexRun cs .escWord tok quoted acc
    else shlexRun cs .word (tok ++ [c]) quoted acc
  | c :: cs, .squote, tok, _, acc =>
    if c == '\'' then shlexRun cs .word tok true acc
    else shlexRun cs .squote (tok ++ [c]) true acc
  | c :: cs, .dquote, tok, _, acc =>
    if c == '"' then shlexRun cs .word tok true acc
    else if c == '\\' then shlexRun cs .escDquote tok true acc
    else shlexRun cs .dquote (tok ++ [c]) true acc
  | c :: cs, .escWord, tok, quoted, acc =>
    shlexRun cs .word (tok ++ [c]) quoted acc
  | c :: cs, .escDquote, tok, quoted, acc =>
    if c == '\\' || c == '"' then shlexRun cs .dquote (tok ++ [c]) quoted acc
    else shlexRun cs .dquote (tok ++ ['\\', c]) quoted acc

/-- Embedding of `shlex.split` on a whole string. -/
def shlexSplit (s : String) : Option (List String) :=
  shlexRun s.data .ws [] false []

/-! ### The `edit` orchestration

File-system state is an association list from path to bytes; a write
shadows earlier entries (so it truncates), a read finds the most recent
write.  Every file open, close, spawn and wait is also recorded in an
event trace, and the paths of handles that `edit` itself never closes
are collected, so that frame and resource claims can be stated. -/

/-- File-system state: most recent writes first. -/
abbrev FS := List (String × Bytes)

/-- A binary-mode file write: creates or truncates `name`. -/
def fsWrite (fs : FS) (name : String) (bs : Bytes) : FS :=
  (name, bs) :: fs

/-- A binary-mode file read: `none` when the file does not exist. -/
def fsRead (fs : FS) (name : String) : Option Bytes :=
  fs.lookup name

/-- Observable events of one `edit` call. -/
inductive Ev where
  | openFile (path : String) (mode : String)
  | closeFile (path : String)
  | spawn (args : List String) (stdoutRedirect : Option String)
  | wait
deriving DecidableEq

/-- The `contents` argument of `edit`: Python `str` or `bytes`. -/
inductive Contents where
  | text (s : String)
  | raw (bs : Bytes)

/-- The `contents.encode()` step: text is UTF-8 encoded (Python's
default encoding), bytes pass through unchanged. -/
def encodeContents : Contents → Bytes
  | .text s => s.data.flatMap String.utf8EncodeChar
  | .raw bs => bs

/-- The child-process spawner (`subprocess.Popen` + `communicate`):
given the argument vector and the file system, either fails to launch
(`none`, a raised `OSError`) or returns the child's exit code together
with the file system after the child ran. -/
abbrev Spawner := List String → FS → Option (Int × FS)

/-- A spawner built from a file-system effect and a fixed exit code;
it always launches. -/
def mkSpawner (eff : List String → FS → FS) (code : Int) : Spawner :=
  fun args fs => some (code, eff args fs)

/-- The outcome of one `edit` call: the returned bytes or the raised
error, the final file system, the event trace, and the paths of file
handles the call opened but never closed. -/
structure EditOut where
  result : Except PyErr Bytes
  fs : FS
  log : List Ev
  openHandles : List String

/-- The tail of `edit` once the target file name is fixed: the optional
initial-content write (a `with open(..., 'wb')` block, closed on exit),
the optional terminal-device open (never closed by the code), the spawn,
the wait, and the final read (a `with open(..., 'rb')` block). -/
def editWithFile (env : Env) (spawner : Spawner) (fs1 : FS) (log1 : List Ev)
    (handles1 : List String) (filename : String) (contents : Option Contents)
    (use_tty : Bool) (args0 : List String) : EditOut :=
  let fs2 := match contents with
    | none => fs1
    | some c => fsWrite fs1 filename (encodeContents c)
  let log2 := match contents with
    | none => log1
    | some _ => log1 ++ [Ev.openFile filename "wb", Ev.closeFile filename]
  let args := args0 ++ [filename]
  let stdoutR := if use_tty then some (get_tty_filename env.platform) else none
  let log3 := if use_tty then
      log2 ++ [Ev.openFile (get_tty_filename env.platform) "wb"]
    else log2
  let handles3 := if use_tty then handles1 ++ [get_tty_filename env.platform]
    else handles1
  match spawner args fs2 with
  | none => ⟨.error .spawnError, fs2, log3, handles3⟩
  | some (_exitCode, fs3) =>
    match fsRead fs3 filename with
    | none =>
      ⟨.error .ioError, fs3,
        log3 ++ [Ev.spawn args stdoutR, Ev.wait, Ev.openFile filename "rb"],
        handles3⟩
    | some bs =>
      ⟨.ok bs, fs3,
        log3 ++ [Ev.spawn args stdoutR, Ev.wait, Ev.openFile filename "rb",
          Ev.closeFile filename],
        handles3⟩

/-- The target-file preparation step: with no file name given,
`tempfile.NamedTemporaryFile(suffix=suffix)` creates an empty uniquely
named file and keeps its handle open for the rest of the call. -/
def editCore (env : Env) (spawner : Spawner) (fs0 : FS)
    (filename : Option String) (contents : Option Contents)
    (use_tty : Bool) (suffix : String) (args0 : List String) : EditOut :=
  match filename with
  | none =>
    editWithFile env spawner (fsWrite fs0 (env.tmpName suffix) [])
      [Ev.openFile (env.tmpName suffix) "w+b"] [env.tmpName suffix]
      (env.tmpName suffix) contents use_tty args0
  | some f => editWithFile env spawner fs0 [] [] f contents use_tty args0

/-- Embedding of `edit(filename, contents, use_tty, suffix)`: resolve the editor,
tokenize it with `shlex.split` (a `ValueError` propagates), take its
first token (an `IndexError` propagates on an empty vector), append the
flags for the token's resolved base name, default `use_tty` to
`stdin.isatty() and not stdout.isatty()`, then run the prepared call. -/
def edit (env : Env) (spawner : Spawner) (fs0 : FS)
    (filename : Option String) (contents : Option Contents)
    (use_tty : Option Bool) (suffix : String) : EditOut :=
  match get_editor env with
  | .error e => ⟨.error e, fs0, [], []⟩
  | .ok editorStr =>
    match shlexSplit editorStr with
    | none => ⟨.error .valueError, fs0, [], []⟩
    | some [] => ⟨.error .indexError, fs0, [], []⟩
    | some (first :: rest) =>
      editCore env spawner fs0 filename contents
        (use_tty.getD (env.stdinIsatty && !env.stdoutIsatty)) suffix
        ((first :: rest) ++ get_editor_args (basename (env.realpath first)))

/-! ### Trace observers -/

/-- The argument vectors of the spawn events of a trace. -/
def spawnArgsOf (log : List Ev) : List (List String) :=
  log.filterMap fun e =>
    match e with
    | .spawn a _ => some a
    | _ => none

/-- The standard-output redirections of the spawn events of a trace. -/
def spawnRedirectsOf (log : List Ev) : List (Option String) :=
  log.filterMap fun e =>
    match e with
    | .spawn _ r => some r
    | _ => none

/-- The `(path, mode)` pairs of the file opens of a trace. -/
def opensOf (log : List Ev) : List (String × String) :=
  log.filterMap fun e =>
    match e with
    | .openFile p m => some (p, m)
    | _ => none

/-- Whether an event is a spawn. -/
def isSpawnEv : Ev → Bool
  | .spawn _ _ => true
  | _ => false

/-- The paths opened for reading in a trace. -/
def readOpensOf (log : List Ev) : List String :=
  log.filterMap fun e =>
    match e with
    | .openFile p m => if m = "rb" then some p else none
    | _ => none

/-- Substring test on character lists: does `needle` start `hay`? -/
def leadsSeq : List Char → List Char → Bool
  | [], _ => true
  | _ :: _, [] => false
  | a :: as, b :: bs => a == b && leadsSeq as bs

/-- Substring test on character lists: does `needle` occur in `hay`? -/
def occursIn (needle : List Char) : List Char → Bool
  | [] => leadsSeq needle []
  | b :: bs => leadsSeq needle (b :: bs) || occursIn needle bs

/-! ### Spec-side reference definitions

These follow the specification's words, to be compared with the
definitions above that were translated from the code. -/

/-- The spec's flag-mapping table of §4.2, row by row. -/
def specArgTable : List (String × List String) :=
  [("vim", ["-f", "-o"]), ("gvim", ["-f", "-o"]),
   ("vim.basic", ["-f", "-o"]), ("vim.tiny", ["-f", "-o"]),
   ("emacs", ["-nw"]), ("emacsclient", ["-nw"]),
   ("gedit", ["-w", "--new-window"]),
   ("nano", ["-R"]),
   ("code", ["-w", "-n"])]

/-- The spec's argument policy: look the base name up in the table;
names not in the table map to no extra flags. -/
def editorArgsSpec (name : String) : List String :=
  (specArgTable.lookup name).getD []

/-- The second- and third-priority steps of the amended resolution:
return the second-priority variable when set and non-empty, else the
first default name the locator resolves. -/
def secondPriorityAmended (env : Env) : Except PyErr String :=
  match env.editorVar with
  | some e => if e = "" then findDefault env.locate get_default_editors else .ok e
  | none => findDefault env.locate get_default_editors

/-- The amended resolution policy (claim C1 as corrected): the
first-priority variable is returned when set and non-empty; otherwise
the second-priority variable is returned when set and non-empty
(a set-but-empty second-priority variable is skipped, unlike in the
claim as stated); otherwise the default list is scanned. -/
def resolveEditorAmended (env : Env) : Except PyErr String :=
  match env.visual with
  | some v => if v = "" then secondPriorityAmended env else .ok v
  | none => secondPriorityAmended env

/-! ### Concrete environments for witnesses and counterexamples -/

/-- An environment whose second-priority variable is set but empty and
where no executable resolves. -/
def envEmptyEditorVar : Env :=
  ⟨none, some "", fun _ => none, fun s => s, true, true, "linux",
    fun _ => "/tmp/tmpfile"⟩

/-- An environment with `VISUAL` set to `vim`. -/
def envVim : Env :=
  ⟨some "vim", none, fun _ => none, fun s => s, true, true, "linux",
    fun _ => "/tmp/tmpfile"⟩

/-- An environment with `VISUAL` set to `emacsclient -c`. -/
def envEmacsclient : Env :=
  ⟨some "emacsclient -c", none, fun _ => none, fun s => s, true, false,
    "linux", fun _ => "/tmp/tmpfile"⟩

/-- An environment with neither variable set and a locator that
resolves nothing. -/
def envNothing : Env :=
  ⟨none, none, fun _ => none, fun s => s, true, true, "linux",
    fun _ => "/tmp/tmpfile"⟩

/-- The spawner that performs no file-system mutation and exits 0. -/
def noopSpawner : Spawner := mkSpawner (fun _ fs => fs) 0

/-- The spawner that always fails to launch. -/
def failSpawner : Spawner := fun _ _ => none

/-! ### Basic lemmas -/

/-- Reading a file straight after writing it yields the written bytes. -/
theorem fsRead_fsWrite_self (fs : FS) (name : String) (bs : Bytes) :
    fsRead (fsWrite fs name bs) name = some bs := by
  simp [fsRead, fsWrite, List.lookup]

/-! ### Claims -/

/-- C2: the argument-policy function `get_editor_args` is total over all
strings and returns exactly the flags of the spec's mapping table, in
order, for every basename in the table, and the empty list for every
other string. -/
theorem get_editor_args_matches_spec_table (s : String) :
    get_editor_args s = editorArgsSpec s := by
  by_cases h1 : s = "vim"
  · subst h1; rfl
  by_cases h2 : s = "gvim"
  · subst h2; rfl
  by_cases h3 : s = "vim.basic"
  · subst h3; rfl
  by_cases h4 : s = "vim.tiny"
  · subst h4; rfl
  by_cases h5 : s = "emacs"
  · subst h5; rfl
  by_cases h6 : s = "emacsclient"
  · subst h6; rfl
  by_cases h7 : s = "gedit"
  · subst h7; rfl
  by_cases h8 : s = "nano"
  · subst h8; rfl
  by_cases h9 : s = "code"
  · subst h9; rfl
  have b1 : (s == "vim") = false := beq_eq_false_iff_ne.mpr h1
  have b2 : (s == "gvim") = false := beq_eq_false_iff_ne.mpr h2
  have b3 : (s == "vim.basic") = false := beq_eq_false_iff_ne.mpr h3
  have b4 : (s == "vim.tiny") = false := beq_eq_false_iff_ne.mpr h4
  have b5 : (s == "emacs") = false := beq_eq_false_iff_ne.mpr h5
  have b6 : (s == "emacsclient") = false := beq_eq_false_iff_ne.mpr h6
  have b7 : (s == "gedit") = false := beq_eq_false_iff_ne.mpr h7
  have b8 : (s == "nano") = false := beq_eq_false_iff_ne.mpr h8
  have b9 : (s == "code") = false := beq_eq_false_iff_ne.mpr h9
  simp [get_editor_args, editorArgsSpec, specArgTable, List.lookup,
    h1, h2, h3, h4, h5, h6, h7, h8, h9, b1, b2, b3, b4, b5, b6, b7, b8, b9]

/-- C1 (amended): `get_editor` returns the first-priority variable's
value verbatim when it is set and non-empty; otherwise the
second-priority variable's value when it is set and non-empty (not
merely set, as the claim stated); otherwise the first default-editor
name the locator resolves, as the resolved path. -/
theorem get_editor_eq_resolveEditorAmended (env : Env) :
    get_editor env = resolveEditorAmended env := by
  unfold get_editor resolveEditorAmended secondPriorityAmended pyOr
  cases hv : env.visual with
  | none =>
    cases he : env.editorVar with
    | none => rfl
    | some e => by_cases he0 : e = "" <;> simp [he0]
  | some v =>
    by_cases hv0 : v = ""
    · simp only [hv0, if_pos rfl]
      cases he : env.editorVar with
      | none => rfl
      | some e => by_cases he0 : e = "" <;> simp [he0]
    · simp [hv0]

/-- C1 counterexample: with the first-priority variable unset and the
second-priority variable set to the empty string, `get_editor` does not
return that variable's value (the empty string); it falls through to
the default list, here failing with `EditorError`. -/
theorem get_editor_empty_second_var_counterexample :
    get_editor envEmptyEditorVar = .error (.editorNotFound editorNotFoundMsg) ∧
      get_editor envEmptyEditorVar ≠ .ok "" :=
  ⟨rfl, fun h => nomatch h⟩

/-- C7: with neither environment variable set and no default editor
name resolving, `get_editor` fails with the `EditorError` whose message
contains the `$EDITOR` remediation hint. -/
theorem get_editor_total_failure (env : Env)
    (hv : env.visual = none) (he : env.editorVar = none)
    (hl : ∀ d ∈ get_default_editors, env.locate d = none) :
    get_editor env = .error (.editorNotFound editorNotFoundMsg) ∧
      occursIn "$EDITOR".data editorNotFoundMsg.data = true := by
  constructor
  · have h1 := hl "editor" (by simp [get_default_editors])
    have h2 := hl "vim" (by simp [get_default_editors])
    have h3 := hl "emacs" (by simp [get_default_editors])
    have h4 := hl "nano" (by simp [get_default_editors])
    unfold get_editor pyOr
    rw [hv, he]
    simp [findDefault, get_default_editors, h1, h2, h3, h4]
  · decide

/-- C7 witness: a concrete such environment. -/
theorem get_editor_total_failure_witness :
    get_editor envNothing = .error (.editorNotFound editorNotFoundMsg) ∧
      occursIn "$EDITOR".data editorNotFoundMsg.data = true :=
  get_editor_total_failure envNothing rfl rfl (fun _ _ => rfl)

/-- C3: for every resolved editor string, `edit` assembles the spawned
argument vector as the shell tokenization of the resolved string,
followed by the extra flags for the base name of the resolved real path
of the first token, followed by the target path. -/
theorem edit_spawn_args_assembly (env : Env) (eff : List String → FS → FS)
    (code : Int) (fs0 : FS) (filename : Option String)
    (contents : Option Contents) (utty : Option Bool) (suffix : String)
    (s t : String) (ts : List String)
    (hge : get_editor env = .ok s) (hsp : shlexSplit s = some (t :: ts)) :
    spawnArgsOf
        (edit env (mkSpawner eff code) fs0 filename contents utty suffix).log =
      [(t :: ts) ++ get_editor_args (basename (env.realpath t)) ++
        [filename.getD (env.tmpName suffix)]] := by
  unfold edit
  simp only [hge]
  simp only [hsp]
  unfold editCore editWithFile
  cases filename <;> cases contents <;>
    cases hu : utty.getD (env.stdinIsatty && !env.stdoutIsatty) <;>
      simp only [mkSpawner, Option.getD] <;>
        split <;>
          simp [spawnArgsOf, List.filterMap_append, List.filterMap_cons]

/-- C3 witness: `VISUAL = "emacsclient -c"` against target
`/tmp/test.txt` spawns exactly
`["emacsclient", "-c", "-nw", "/tmp/test.txt"]`. -/
theorem edit_spawn_args_assembly_witness :
    spawnArgsOf
        (edit envEmacsclient (mkSpawner (fun _ fs => fs) 0) []
          (some "/tmp/test.txt") none (some false) "").log =
      [["emacsclient", "-c", "-nw", "/tmp/test.txt"]] := by
  have h := edit_spawn_args_assembly envEmacsclient (fun _ fs => fs) 0 []
    (some "/tmp/test.txt") none (some false) "" "emacsclient -c"
    "emacsclient" ["-c"] rfl rfl
  rw [h]
  rfl

/-- C4: with contents given and no path, the encoded contents (UTF-8
for text, as-is for bytes) are written to the fresh target file before
the editor is invoked — the write-open appears in the trace strictly
before the spawn event — truncating any prior contents, and under the
no-mutation stub spawner the call returns exactly those bytes. -/
theorem edit_roundtrip_contents (env : Env) (fs0 : FS) (c : Contents)
    (utty : Option Bool) (suffix s t : String) (ts : List String)
    (hge : get_editor env = .ok s) (hsp : shlexSplit s = some (t :: ts)) :
    (edit env noopSpawner fs0 none (some c) utty suffix).result =
        .ok (encodeContents c) ∧
      Ev.openFile (env.tmpName suffix) "wb" ∈
        ((edit env noopSpawner fs0 none (some c) utty suffix).log.takeWhile
          (fun e => !isSpawnEv e)) := by
  unfold edit
  simp only [hge]
  simp only [hsp]
  unfold editCore editWithFile noopSpawner
  cases hu : utty.getD (env.stdinIsatty && !env.stdoutIsatty) <;>
    simp [mkSpawner, fsRead_fsWrite_self, isSpawnEv, List.takeWhile, hu]

/-- C4 witness: `edit` with text contents `"hello"` and no path returns
the bytes of `b"hello"` under the stub spawner. -/
theorem edit_roundtrip_contents_witness :
    (edit envVim noopSpawner [] none (some (.text "hello")) none "").result =
        .ok [104, 101, 108, 108, 111] ∧
      Ev.openFile (envVim.tmpName "") "wb" ∈
        ((edit envVim noopSpawner [] none (some (.text "hello")) none
          "").log.takeWhile (fun e => !isSpawnEv e)) := by
  have h := edit_roundtrip_contents envVim [] (.text "hello") none "" "vim"
    "vim" [] rfl rfl
  exact ⟨by rw [h.1]; rfl, h.2⟩

/-- C5: when `use_tty` is not given, the spawned child's standard
output is redirected to the terminal device exactly when the calling
process's standard input is a terminal and its standard output is not;
the device is `CON:` on `win32` and `/dev/tty` on every other
platform. -/
theorem edit_tty_default_heuristic (env : Env) (eff : List String → FS → FS)
    (code : Int) (fs0 : FS) (filename : Option String)
    (contents : Option Contents) (suffix s t : String) (ts : List String)
    (hge : get_editor env = .ok s) (hsp : shlexSplit s = some (t :: ts)) :
    spawnRedirectsOf
        (edit env (mkSpawner eff code) fs0 filename contents none suffix).log =
        [if env.stdinIsatty && !env.stdoutIsatty then
            some (get_tty_filename env.platform) else none] ∧
      get_tty_filename "win32" = "CON:" ∧
      ∀ p, p ≠ "win32" → get_tty_filename p = "/dev/tty" := by
  refine ⟨?_, rfl, fun p hp => by simp [get_tty_filename, hp]⟩
  unfold edit
  simp only [hge]
  simp only [hsp]
  unfold editCore editWithFile
  cases filename <;> cases contents <;>
    cases hb : env.stdinIsatty && !env.stdoutIsatty <;>
      simp only [mkSpawner, Option.getD, hb] <;>
        split <;>
          simp [spawnRedirectsOf, List.filterMap_append, List.filterMap_cons]

/-- C5 witness: stdin a terminal, stdout not, `use_tty` unspecified on
a POSIX platform: the single spawn event redirects to `/dev/tty`. -/
theorem edit_tty_default_heuristic_witness :
    spawnRedirectsOf
        (edit envEmacsclient (mkSpawner (fun _ fs => fs) 1) [("/tmp/a", [])]
          (some "/tmp/a") none none "").log = [some "/dev/tty"] ∧
      get_tty_filename "win32" = "CON:" ∧
      ∀ p, p ≠ "win32" → get_tty_filename p = "/dev/tty" := by
  have h := edit_tty_default_heuristic envEmacsclient (fun _ fs => fs) 1
    [("/tmp/a", [])] (some "/tmp/a") none "" "emacsclient -c" "emacsclient"
    ["-c"] rfl rfl
  exact ⟨by rw [h.1]; rfl, h.2.1, h.2.2⟩

/-- C6: the child's exit code is never inspected — two spawners with
the same file-system effect but different exit codes give identical
outcomes — and after the child exits the target file is re-opened and
its bytes returned: a spawner that writes `newBs` to the target and
exits with any code (zero or not) yields `.ok newBs`, never an error. -/
theorem edit_ignores_exit_code (env : Env) (eff : List String → FS → FS)
    (c₁ c₂ code : Int) (fs0 : FS) (filename : Option String)
    (contents : Option Contents) (utty : Option Bool)
    (suffix target : String) (newBs : Bytes) (s t : String) (ts : List String)
    (hge : get_editor env = .ok s) (hsp : shlexSplit s = some (t :: ts)) :
    edit env (mkSpawner eff c₁) fs0 filename contents utty suffix =
        edit env (mkSpawner eff c₂) fs0 filename contents utty suffix ∧
      (edit env (mkSpawner (fun _ fs => fsWrite fs target newBs) code) fs0
          (some target) contents utty suffix).result = .ok newBs := by
  constructor
  · unfold edit
    cases hg : get_editor env with
    | error e => rfl
    | ok str =>
      cases hs : shlexSplit str with
      | none => rfl
      | some l =>
        cases l with
        | nil => rfl
        | cons a as =>
          unfold editCore
          cases filename <;> rfl
  · unfold edit
    simp only [hge]
    simp only [hsp]
    unfold editCore editWithFile
    cases contents <;>
      cases hu : utty.getD (env.stdinIsatty && !env.stdoutIsatty) <;>
        simp [mkSpawner, fsRead_fsWrite_self, hu]

/-- C6 witness: exit codes 0 and 7 give the same outcome, and a child
exiting 5 after writing `[42]` to the target still returns `[42]`. -/
theorem edit_ignores_exit_code_witness :
    edit envVim (mkSpawner (fun _ fs => fs) 0) [] (some "/tmp/f") none
        (some false) "" =
      edit envVim (mkSpawner (fun _ fs => fs) 7) [] (some "/tmp/f") none
        (some false) "" ∧
      (edit envVim (mkSpawner (fun _ fs => fsWrite fs "/tmp/f" [42]) 5) []
          (some "/tmp/f") none (some false) "").result = .ok [42] :=
  edit_ignores_exit_code envVim (fun _ fs => fs) 0 7 5 [] (some "/tmp/f")
    none (some false) "" "/tmp/f" [42] "vim" "vim" [] rfl rfl

/-- C8 counterexample: a call with contents given and TTY redirection
in effect performs three file opens — the target write, the terminal
device, the final target read — not exactly two. -/
theorem edit_two_opens_counterexample :
    (opensOf (edit envVim (mkSpawner (fun _ fs => fs) 0) [("/tmp/f", [9])]
        (some "/tmp/f") (some (.raw [1])) (some true) "").log).length = 3 ∧
      (opensOf (edit envVim (mkSpawner (fun _ fs => fs) 0) [("/tmp/f", [9])]
        (some "/tmp/f") (some (.raw [1])) (some true) "").log).length ≠ 2 :=
  ⟨rfl, by decide⟩

/-- C8 (amended): every call that resolves, tokenizes and spawns
successfully opens exactly, in order: the temporary file at its
creation when no path is given, the target for writing when contents
are given, the terminal device when TTY redirection is in effect, and
the target for the final read; and it spawns exactly one child
process. -/
theorem edit_file_opens_exact (env : Env) (eff : List String → FS → FS)
    (code : Int) (fs0 : FS) (filename : Option String)
    (contents : Option Contents) (utty : Option Bool)
    (suffix s t : String) (ts : List String)
    (hge : get_editor env = .ok s) (hsp : shlexSplit s = some (t :: ts)) :
    opensOf
        (edit env (mkSpawner eff code) fs0 filename contents utty suffix).log =
        ((match filename with
          | none => [(env.tmpName suffix, "w+b")]
          | some _ => []) ++
         (match contents with
          | none => []
          | some _ => [(filename.getD (env.tmpName suffix), "wb")]) ++
         (if utty.getD (env.stdinIsatty && !env.stdoutIsatty) then
            [(get_tty_filename env.platform, "wb")] else []) ++
         [(filename.getD (env.tmpName suffix), "rb")]) ∧
      (spawnArgsOf (edit env (mkSpawner eff code) fs0 filename contents utty
        suffix).log).length = 1 := by
  unfold edit
  simp only [hge]
  simp only [hsp]
  unfold editCore editWithFile
  cases filename <;> cases contents <;>
    cases hu : utty.getD (env.stdinIsatty && !env.stdoutIsatty) <;>
      simp only [mkSpawner, Option.getD, hu] <;>
        split <;>
          simp [opensOf, spawnArgsOf, List.filterMap_append, List.filterMap_cons]

/-- C8 amended witness: no path, raw contents, TTY redirection
requested: temp-file creation, target write, terminal device, target
read, and a single spawn. -/
theorem edit_file_opens_exact_witness :
    opensOf (edit envVim (mkSpawner (fun _ fs => fs) 0) [] none
        (some (.raw [7])) (some true) "").log =
        [("/tmp/tmpfile", "w+b"), ("/tmp/tmpfile", "wb"), ("/dev/tty", "wb"),
          ("/tmp/tmpfile", "rb")] ∧
      (spawnArgsOf (edit envVim (mkSpawner (fun _ fs => fs) 0) [] none
        (some (.raw [7])) (some true) "").log).length = 1 := by
  have h := edit_file_opens_exact envVim (fun _ fs => fs) 0 [] none
    (some (.raw [7])) (some true) "" "vim" "vim" [] rfl rfl
  exact ⟨by rw [h.1]; rfl, h.2⟩

/-- C9 counterexample: when spawning fails with TTY redirection in
effect, the terminal-device handle opened just before the spawn is
never closed, so a handle opened by the call does remain open on that
exit path. -/
theorem edit_spawn_failure_handle_counterexample :
    (edit envVim failSpawner [("/tmp/f", [])] (some "/tmp/f") none
        (some true) "").result = .error .spawnError ∧
      (edit envVim failSpawner [("/tmp/f", [])] (some "/tmp/f") none
        (some true) "").openHandles ≠ [] :=
  ⟨rfl, fun h => nomatch h⟩

/-- C9 (amended): when spawning fails, the call fails immediately with
the spawn error — no wait, no read of the target — and the handles of
the two `with`-blocks are closed; but the terminal-device handle (when
TTY redirection is in effect) and the temporary-file handle (when no
path was given) remain open. -/
theorem edit_spawn_failure_behavior (env : Env) (fs0 : FS)
    (filename : Option String) (contents : Option Contents)
    (utty : Option Bool) (suffix s t : String) (ts : List String)
    (hge : get_editor env = .ok s) (hsp : shlexSplit s = some (t :: ts)) :
    (edit env failSpawner fs0 filename contents utty suffix).result =
        .error .spawnError ∧
      Ev.wait ∉ (edit env failSpawner fs0 filename contents utty suffix).log ∧
      readOpensOf (edit env failSpawner fs0 filename contents utty suffix).log
        = [] ∧
      (edit env failSpawner fs0 filename contents utty suffix).openHandles =
        ((match filename with
          | none => [env.tmpName suffix]
          | some _ => []) ++
         (if utty.getD (env.stdinIsatty && !env.stdoutIsatty) then
            [get_tty_filename env.platform] else [])) := by
  unfold edit
  simp only [hge]
  simp only [hsp]
  unfold editCore editWithFile failSpawner
  cases filename <;> cases contents <;>
    cases hu : utty.getD (env.stdinIsatty && !env.stdoutIsatty) <;>
      simp [Option.getD, hu, readOpensOf, List.filterMap_append,
        List.filterMap_cons]

/-- C9 amended witness: no path, no contents, heuristic TTY
redirection: the spawn error is returned at once and exactly the
temporary-file and terminal-device handles stay open. -/
theorem edit_spawn_failure_behavior_witness :
    (edit envEmacsclient failSpawner [] none none none "").result =
        .error .spawnError ∧
      Ev.wait ∉ (edit envEmacsclient failSpawner [] none none none "").log ∧
      readOpensOf (edit envEmacsclient failSpawner [] none none none "").log
        = [] ∧
      (edit envEmacsclient failSpawner [] none none none "").openHandles =
        ["/tmp/tmpfile", "/dev/tty"] := by
  have h := edit_spawn_failure_behavior envEmacsclient [] none none none ""
    "emacsclient -c" "emacsclient" ["-c"] rfl rfl
  exact ⟨h.1, h.2.1, h.2.2.1, by rw [h.2.2.2]; rfl⟩

/-- C10: with an explicit filename and no contents, `edit` never
writes to the target — under the no-mutation stub spawner the file
system is unchanged and the returned bytes are the file's contents
from before the call — and the target is opened exactly once, for the
final read. -/
theorem edit_no_write_without_contents (env : Env) (fs0 : FS)
    (target : String) (bs : Bytes) (utty : Option Bool)
    (suffix s t : String) (ts : List String)
    (hge : get_editor env = .ok s) (hsp : shlexSplit s = some (t :: ts))
    (hread : fsRead fs0 target = some bs)
    (htty : target ≠ get_tty_filename env.platform) :
    (edit env noopSpawner fs0 (some target) none utty suffix).result =
        .ok bs ∧
      (edit env noopSpawner fs0 (some target) none utty suffix).fs = fs0 ∧
      (opensOf (edit env noopSpawner fs0 (some target) none utty
          suffix).log).filter (fun pm => pm.1 == target) =
        [(target, "rb")] := by
  have hb : (get_tty_filename env.platform == target) = false :=
    beq_eq_false_iff_ne.mpr (fun h => htty h.symm)
  unfold edit
  simp only [hge]
  simp only [hsp]
  unfold editCore editWithFile noopSpawner
  cases hu : utty.getD (env.stdinIsatty && !env.stdoutIsatty) <;>
    simp [mkSpawner, Option.getD, hu, hread, opensOf, List.filterMap_append,
      List.filterMap_cons, List.filter_append, hb]

/-- C10 witness: a pre-existing file `/tmp/f` holding `[9]`, no
contents: `edit` returns `[9]`, leaves the file system unchanged, and
opens `/tmp/f` only for the final read. -/
theorem edit_no_write_without_contents_witness :
    (edit envVim noopSpawner [("/tmp/f", [9])] (some "/tmp/f") none none
        "").result = .ok [9] ∧
      (edit envVim noopSpawner [("/tmp/f", [9])] (some "/tmp/f") none none
        "").fs = [("/tmp/f", [9])] ∧
      (opensOf (edit envVim noopSpawner [("/tmp/f", [9])] (some "/tmp/f")
          none none "").log).filter (fun pm => pm.1 == "/tmp/f") =
        [("/tmp/f", "rb")] :=
  edit_no_write_without_contents envVim [("/tmp/f", [9])] "/tmp/f" [9] none
    "" "vim" "vim" [] rfl rfl rfl (by decide)

end PyEditor
